import Mathlib

/-!
Verification of the interactive solar-system renderer (solarsystem.js).

The JavaScript source is shallowly embedded over the real numbers:
GLSL/JS floating-point arithmetic is modelled by exact real arithmetic,
JS arrays by Lean lists, glMatrix 4x4 matrices by `Matrix (Fin 4) (Fin 4) ℝ`
acting on column vectors (glMatrix `rotateY`/`translate`/`scale` post-multiply
their argument matrix, and `transformMat4` computes `M * v`).
-/

namespace SolarSystem

noncomputable section

open Real

/-! ### Camera and input state (solarsystem.js lines 150-165, 195-205) -/

/-- `let camera = { x: 0, y: 2, z: 15, pitch: 0, yaw: 0 }` -/
structure Camera where
  x : ℝ
  y : ℝ
  z : ℝ
  pitch : ℝ
  yaw : ℝ

/-- Pressed-state of the keys the render loop polls (`keys` map). -/
structure Keys where
  w : Bool
  s : Bool
  a : Bool
  d : Bool
  q : Bool
  e : Bool
  r : Bool
  deriving DecidableEq

/-- The initial camera state (line 152). -/
def initialCamera : Camera := { x := 0, y := 2, z := 15, pitch := 0, yaw := 0 }

/-- `function resetCamera() { camera = { x: 0, y: 2, z: 15, pitch: 0, yaw: 0 }; }`
(line 165). It replaces the camera state wholesale, ignoring the old state. -/
def resetCamera (_c : Camera) : Camera := { x := 0, y := 2, z := 15, pitch := 0, yaw := 0 }

/-- The per-frame camera movement block of `render` (lines 196-205):
fixed `speed = 0.2`, `forward = cos(yaw)`, `right = sin(yaw)`, then the
key-conditional translations in source order, and finally the `r` reset. -/
def updateCamera (keys : Keys) (c0 : Camera) : Camera :=
  let speed : ℝ := 0.2
  let forward := Real.cos c0.yaw
  let right := Real.sin c0.yaw
  let c1 := if keys.w then { c0 with x := c0.x + right * speed, z := c0.z - forward * speed } else c0
  let c2 := if keys.s then { c1 with x := c1.x - right * speed, z := c1.z + forward * speed } else c1
  let c3 := if keys.a then { c2 with x := c2.x - forward * speed, z := c2.z - right * speed } else c2
  let c4 := if keys.d then { c3 with x := c3.x + forward * speed, z := c3.z + right * speed } else c3
  let c5 := if keys.q then { c4 with y := c4.y + speed } else c4
  let c6 := if keys.e then { c5 with y := c5.y - speed } else c5
  if keys.r then resetCamera c6 else c6

/-- `mousemove` handler (lines 158-163): with the primary button held
(`e.buttons === 1`), `yaw += movementX * 0.002`, `pitch -= movementY * 0.002`. -/
def mouseMove (dx dy : ℝ) (buttons : ℕ) (c : Camera) : Camera :=
  if buttons = 1 then { c with yaw := c.yaw + dx * 0.002, pitch := c.pitch - dy * 0.002 } else c

/-- A camera-mutating event: one frame of keyboard polling, or one mouse-move. -/
inductive CameraEvent where
  | frame (keys : Keys)
  | mouse (dx dy : ℝ) (buttons : ℕ)

def applyEvent (c : Camera) : CameraEvent → Camera
  | CameraEvent.frame keys => updateCamera keys c
  | CameraEvent.mouse dx dy buttons => mouseMove dx dy buttons c

def applyEvents (c : Camera) (evs : List CameraEvent) : Camera :=
  evs.foldl applyEvent c

/-- Keys state with only `w` held. -/
def keysOnlyW : Keys := { w := true, s := false, a := false, d := false, q := false, e := false, r := false }

/-- Keys state with `w` and `d` held. -/
def keysWD : Keys := { w := true, s := false, a := false, d := true, q := false, e := false, r := false }

/-! ### Theorems about the camera -/

/-- **C5.** At `yaw = 0`, one frame with only `w` held changes `camera.z` by
exactly `-0.2` and leaves `camera.x` (and `y`) unchanged; one frame with `w`
and `d` both held moves the camera by the vector sum `(0.2, 0, -0.2)` of the
two keys' individual effects (no diagonal-speed normalization). -/
theorem camera_w_and_wd_translation (c : Camera) (hyaw : c.yaw = 0) :
    (updateCamera keysOnlyW c).x = c.x ∧
    (updateCamera keysOnlyW c).y = c.y ∧
    (updateCamera keysOnlyW c).z = c.z - 0.2 ∧
    (updateCamera keysWD c).x = c.x + 0.2 ∧
    (updateCamera keysWD c).y = c.y ∧
    (updateCamera keysWD c).z = c.z - 0.2 := by
  simp [updateCamera, keysOnlyW, keysWD, hyaw, Real.cos_zero, Real.sin_zero]

theorem camera_w_and_wd_translation_witness :
    initialCamera.yaw = 0 ∧
    ((updateCamera keysOnlyW initialCamera).x = initialCamera.x ∧
     (updateCamera keysOnlyW initialCamera).y = initialCamera.y ∧
     (updateCamera keysOnlyW initialCamera).z = initialCamera.z - 0.2 ∧
     (updateCamera keysWD initialCamera).x = initialCamera.x + 0.2 ∧
     (updateCamera keysWD initialCamera).y = initialCamera.y ∧
     (updateCamera keysWD initialCamera).z = initialCamera.z - 0.2) :=
  ⟨rfl, camera_w_and_wd_translation initialCamera rfl⟩

/-- **C6.** For every camera state reachable from the initial state by any
sequence of keyboard-frame and mouse-move mutations, invoking the reset
operation restores the camera exactly to position (0, 2, 15) with
yaw = 0 and pitch = 0 (which is the initial state). -/
theorem camera_reset_restores_default (evs : List CameraEvent) :
    resetCamera (applyEvents initialCamera evs) = initialCamera := by
  rfl

/-- **C10.** If `r` is held during a frame, the camera at the end of that
frame's update is the default `{x 0, y 2, z 15, pitch 0, yaw 0}`, regardless
of which other movement keys are simultaneously held, because the reset runs
after all translation keys within `render`'s per-frame block. -/
theorem camera_r_overrides_movement (keys : Keys) (c : Camera) (hr : keys.r = true) :
    updateCamera keys c = initialCamera := by
  simp only [updateCamera, hr, if_true]
  rfl

theorem camera_r_overrides_movement_witness :
    ({ w := true, s := true, a := true, d := true, q := true, e := true, r := true } : Keys).r = true ∧
    updateCamera { w := true, s := true, a := true, d := true, q := true, e := true, r := true }
      { x := 3, y := -1, z := 42, pitch := 1, yaw := 2 } = initialCamera :=
  ⟨rfl, camera_r_overrides_movement _ _ rfl⟩

/-! ### Sphere geometry (`createSphere`, solarsystem.js lines 91-128) -/

/-- The unscaled direction of the vertex at latitude index `lat` and longitude
index `lon` in `createSphere(radius, segments)`'s vertex loop (lines 96-108):
`theta = lat * PI / segments`, `phi = lon * 2 * PI / segments`,
`(x, y, z) = (cos phi * sin theta, cos theta, sin phi * sin theta)`. -/
def vertexDirection (segments lat lon : ℕ) : ℝ × ℝ × ℝ :=
  let theta : ℝ := lat * Real.pi / segments
  let phi : ℝ := lon * 2 * Real.pi / segments
  (Real.cos phi * Real.sin theta, Real.cos theta, Real.sin phi * Real.sin theta)

/-- The position pushed for vertex `(lat, lon)`: `radius * (x, y, z)` (line 110). -/
def vertexPosition (radius : ℝ) (segments lat lon : ℕ) : ℝ × ℝ × ℝ :=
  (radius * (vertexDirection segments lat lon).1,
   radius * (vertexDirection segments lat lon).2.1,
   radius * (vertexDirection segments lat lon).2.2)

/-- The `positions` array built by `createSphere` (flat, three floats per
vertex, `lat` from 0 to `segments` inclusive, `lon` from 0 to `segments`
inclusive, in source iteration order). -/
def spherePositions (radius : ℝ) (segments : ℕ) : List ℝ :=
  (List.range (segments + 1)).flatMap fun lat =>
    (List.range (segments + 1)).flatMap fun lon =>
      [(vertexPosition radius segments lat lon).1,
       (vertexPosition radius segments lat lon).2.1,
       (vertexPosition radius segments lat lon).2.2]

/-- The `normals` array built by `createSphere` (line 111: the unscaled
`(x, y, z)` for each vertex, same iteration order as `positions`). -/
def sphereNormals (segments : ℕ) : List ℝ :=
  (List.range (segments + 1)).flatMap fun lat =>
    (List.range (segments + 1)).flatMap fun lon =>
      [(vertexDirection segments lat lon).1,
       (vertexDirection segments lat lon).2.1,
       (vertexDirection segments lat lon).2.2]

/-- The `indices` array built by `createSphere` (lines 115-123): for each
`lat < segments`, `lon < segments`, with `first = lat*(segments+1) + lon` and
`second = first + segments + 1`, push the two triangles
`(first, second, first+1)` and `(second, second+1, first+1)`. -/
def sphereIndices (segments : ℕ) : List ℕ :=
  (List.range segments).flatMap fun lat =>
    (List.range segments).flatMap fun lon =>
      let first := lat * (segments + 1) + lon
      let second := first + segments + 1
      [first, second, first + 1, second, second + 1, first + 1]

/-- `new Uint16Array(indices)` (line 125): each index is stored reduced
modulo 2^16 = 65536. -/
def sphereIndicesU16 (segments : ℕ) : List ℕ :=
  (sphereIndices segments).map fun i => i % 65536

/-- Every emitted sphere index is below the vertex count `(segments+1)^2`. -/
theorem sphereIndices_lt (segments : ℕ) :
    ∀ i ∈ sphereIndices segments, i < (segments + 1) ^ 2 := by
  intro i hi
  simp only [sphereIndices, List.mem_flatMap, List.mem_range] at hi
  obtain ⟨lat, hlat, lon, hlon, hmem⟩ := hi
  simp only [List.mem_cons, List.not_mem_nil, or_false] at hmem
  have hlat' : lat + 1 ≤ segments := hlat
  have hlon' : lon + 1 ≤ segments := hlon
  rcases hmem with h | h | h | h | h | h <;> subst h <;> nlinarith

/-- Auxiliary: a `flatMap` over `List.range n` whose body always has length
`c` flattens to a list of length `n * c`. -/
theorem length_range_flatMap {β : Type} (n c : ℕ) (f : ℕ → List β)
    (h : ∀ a, (f a).length = c) : ((List.range n).flatMap f).length = n * c := by
  induction n with
  | zero => simp
  | succ n ih =>
      rw [List.range_succ, List.flatMap_append, List.length_append, ih]
      simp [h, Nat.succ_mul]

/-- Length of the flattened index list: `6 * segments^2`. -/
theorem sphereIndices_length (segments : ℕ) :
    (sphereIndices segments).length = 6 * segments ^ 2 := by
  have inner : ∀ lat : ℕ,
      (((List.range segments).flatMap fun lon =>
        let first := lat * (segments + 1) + lon
        let second := first + segments + 1
        [first, second, first + 1, second, second + 1, first + 1])).length
        = segments * 6 :=
    fun lat => length_range_flatMap segments 6 _ fun lon => rfl
  unfold sphereIndices
  rw [length_range_flatMap segments (segments * 6) _ inner]
  ring

/-- Length of the flattened position list: `3 * (segments+1)^2`,
i.e. `(segments+1)^2` vertices of three coordinates each. -/
theorem spherePositions_length (radius : ℝ) (segments : ℕ) :
    (spherePositions radius segments).length = 3 * (segments + 1) ^ 2 := by
  have inner : ∀ lat : ℕ,
      (((List.range (segments + 1)).flatMap fun lon =>
        [(vertexPosition radius segments lat lon).1,
         (vertexPosition radius segments lat lon).2.1,
         (vertexPosition radius segments lat lon).2.2])).length
        = (segments + 1) * 3 :=
    fun lat => length_range_flatMap (segments + 1) 3 _ fun lon => rfl
  unfold spherePositions
  rw [length_range_flatMap (segments + 1) ((segments + 1) * 3) _ inner]
  ring

theorem sphereNormals_length (segments : ℕ) :
    (sphereNormals segments).length = 3 * (segments + 1) ^ 2 := by
  have inner : ∀ lat : ℕ,
      (((List.range (segments + 1)).flatMap fun lon =>
        [(vertexDirection segments lat lon).1,
         (vertexDirection segments lat lon).2.1,
         (vertexDirection segments lat lon).2.2])).length
        = (segments + 1) * 3 :=
    fun lat => length_range_flatMap (segments + 1) 3 _ fun lon => rfl
  unfold sphereNormals
  rw [length_range_flatMap (segments + 1) ((segments + 1) * 3) _ inner]
  ring

/-- **C2.** For every radius `r > 0` and integer `segments ≥ 1`,
`createSphere(r, segments)` returns a mesh with exactly `(segments+1)^2`
vertices (its flat `positions` and `normals` arrays each hold
`3·(segments+1)^2` floats), exactly `6·segments^2` index entries
(`2·segments^2` triangles), and every emitted index strictly below
`(segments+1)^2`. -/
theorem createSphere_counts (radius : ℝ) (segments : ℕ)
    (hr : 0 < radius) (hn : 1 ≤ segments) :
    (spherePositions radius segments).length = 3 * (segments + 1) ^ 2 ∧
    (sphereNormals segments).length = 3 * (segments + 1) ^ 2 ∧
    (sphereIndices segments).length = 6 * segments ^ 2 ∧
    ∀ i ∈ sphereIndices segments, i < (segments + 1) ^ 2 :=
  ⟨spherePositions_length radius segments, sphereNormals_length segments,
   sphereIndices_length segments, sphereIndices_lt segments⟩

theorem createSphere_counts_witness :
    (0 : ℝ) < 1 ∧ (1 : ℕ) ≤ 24 ∧
    ((spherePositions 1 24).length = 3 * (24 + 1) ^ 2 ∧
     (sphereNormals 24).length = 3 * (24 + 1) ^ 2 ∧
     (sphereIndices 24).length = 6 * 24 ^ 2 ∧
     ∀ i ∈ sphereIndices 24, i < (24 + 1) ^ 2) :=
  ⟨by norm_num, by norm_num, createSphere_counts 1 24 (by norm_num) (by norm_num)⟩

/-- **C3.** Each vertex of `createSphere(radius, segments)` at latitude index
`lat` and longitude index `lon` has position
`radius * (sin θ * cos φ, cos θ, sin θ * sin φ)` with `θ = lat·π/segments`
and `φ = lon·2π/segments`; consequently every vertex position has magnitude
exactly `radius`, and the stored normal equals position divided by `radius`. -/
theorem createSphere_vertex (radius : ℝ) (segments lat lon : ℕ)
    (hr : 0 < radius) (hn : 1 ≤ segments) (hlat : lat ≤ segments) (hlon : lon ≤ segments) :
    vertexPosition radius segments lat lon =
      (radius * (Real.sin (lat * Real.pi / segments) * Real.cos (lon * 2 * Real.pi / segments)),
       radius * Real.cos (lat * Real.pi / segments),
       radius * (Real.sin (lat * Real.pi / segments) * Real.sin (lon * 2 * Real.pi / segments))) ∧
    Real.sqrt ((vertexPosition radius segments lat lon).1 ^ 2 +
               (vertexPosition radius segments lat lon).2.1 ^ 2 +
               (vertexPosition radius segments lat lon).2.2 ^ 2) = radius ∧
    vertexDirection segments lat lon =
      ((vertexPosition radius segments lat lon).1 / radius,
       (vertexPosition radius segments lat lon).2.1 / radius,
       (vertexPosition radius segments lat lon).2.2 / radius) := by
  have h1 : Real.sin (lon * 2 * Real.pi / segments) ^ 2 +
      Real.cos (lon * 2 * Real.pi / segments) ^ 2 = 1 := Real.sin_sq_add_cos_sq _
  have h2 : Real.sin (lat * Real.pi / segments) ^ 2 +
      Real.cos (lat * Real.pi / segments) ^ 2 = 1 := Real.sin_sq_add_cos_sq _
  refine ⟨?_, ?_, ?_⟩
  · simp only [vertexPosition, vertexDirection, Prod.mk.injEq]
    exact ⟨by ring, by ring, by ring⟩
  · have key : (vertexPosition radius segments lat lon).1 ^ 2 +
        (vertexPosition radius segments lat lon).2.1 ^ 2 +
        (vertexPosition radius segments lat lon).2.2 ^ 2 = radius ^ 2 := by
      simp only [vertexPosition, vertexDirection]
      linear_combination (radius ^ 2 * Real.sin (lat * Real.pi / segments) ^ 2) * h1 +
        radius ^ 2 * h2
    rw [key, Real.sqrt_sq hr.le]
  · simp only [vertexPosition, vertexDirection, Prod.mk.injEq]
    have hr' : radius ≠ 0 := ne_of_gt hr
    refine ⟨?_, ?_, ?_⟩ <;> field_simp

theorem createSphere_vertex_witness :
    (0 : ℝ) < 1 ∧ (1 : ℕ) ≤ 24 ∧ (3 : ℕ) ≤ 24 ∧ (5 : ℕ) ≤ 24 ∧
    (vertexPosition 1 24 3 5 =
      (1 * (Real.sin (3 * Real.pi / 24) * Real.cos (5 * 2 * Real.pi / 24)),
       1 * Real.cos (3 * Real.pi / 24),
       1 * (Real.sin (3 * Real.pi / 24) * Real.sin (5 * 2 * Real.pi / 24))) ∧
     Real.sqrt ((vertexPosition 1 24 3 5).1 ^ 2 + (vertexPosition 1 24 3 5).2.1 ^ 2 +
       (vertexPosition 1 24 3 5).2.2 ^ 2) = 1 ∧
     vertexDirection 24 3 5 =
      ((vertexPosition 1 24 3 5).1 / 1, (vertexPosition 1 24 3 5).2.1 / 1,
       (vertexPosition 1 24 3 5).2.2 / 1)) :=
  ⟨by norm_num, by norm_num, by norm_num, by norm_num,
   createSphere_vertex 1 24 3 5 (by norm_num) (by norm_num) (by norm_num) (by norm_num)⟩

/-- **C9.** Whenever `(segments+1)^2 ≤ 65536`, the `Uint16Array` conversion
stores every generated index unchanged (no reduction modulo 2^16 takes
effect); in particular for the used value `segments = 24` the largest
generated index is exactly 624. -/
theorem sphereIndicesU16_exact (segments : ℕ) (h : (segments + 1) ^ 2 ≤ 65536) :
    sphereIndicesU16 segments = sphereIndices segments ∧
    (∀ i ∈ sphereIndices 24, i ≤ 624) ∧ 624 ∈ sphereIndices 24 := by
  refine ⟨?_, ?_, ?_⟩
  · unfold sphereIndicesU16
    have hid : ∀ i ∈ sphereIndices segments, i % 65536 = i := fun i hi =>
      Nat.mod_eq_of_lt (lt_of_lt_of_le (sphereIndices_lt segments i hi) h)
    calc (sphereIndices segments).map (fun i => i % 65536)
        = (sphereIndices segments).map id := List.map_congr_left hid
      _ = sphereIndices segments := List.map_id _
  · intro i hi
    have := sphereIndices_lt 24 i hi
    norm_num at this
    omega
  · simp only [sphereIndices, List.mem_flatMap, List.mem_range]
    refine ⟨23, by norm_num, 23, by norm_num, ?_⟩
    norm_num

theorem sphereIndicesU16_exact_witness :
    (24 + 1) ^ 2 ≤ 65536 ∧
    (sphereIndicesU16 24 = sphereIndices 24 ∧
     (∀ i ∈ sphereIndices 24, i ≤ 624) ∧ 624 ∈ sphereIndices 24) :=
  ⟨by norm_num, sphereIndicesU16_exact 24 (by norm_num)⟩

/-! ### Model transforms (`drawPlanet` and `render`, lines 175-222)

glMatrix's `mat4.rotateY/translate/scale(out, m, arg)` compute
`out = m * A(arg)` (post-multiplication), and `transformMat4` applies a
matrix to a column vector, so `drawPlanet`'s model matrix is the left-to-right
product of the elementary matrices in source order. -/

/-- glMatrix rotation about the Y axis by `a` radians (column-vector
convention, column-major storage `out[0]=c, out[2]=-s, out[8]=s, out[10]=c`). -/
def rotYMatrix (a : ℝ) : Matrix (Fin 4) (Fin 4) ℝ :=
  !![Real.cos a, 0, Real.sin a, 0;
     0, 1, 0, 0;
     -Real.sin a, 0, Real.cos a, 0;
     0, 0, 0, 1]

/-- glMatrix translation by `(tx, ty, tz)`. -/
def translateMatrix (tx ty tz : ℝ) : Matrix (Fin 4) (Fin 4) ℝ :=
  !![1, 0, 0, tx;
     0, 1, 0, ty;
     0, 0, 1, tz;
     0, 0, 0, 1]

/-- glMatrix uniform scale by `s` (homogeneous coordinate untouched). -/
def scaleMatrix (s : ℝ) : Matrix (Fin 4) (Fin 4) ℝ :=
  !![s, 0, 0, 0;
     0, s, 0, 0;
     0, 0, s, 0;
     0, 0, 0, 1]

/-- The model matrix built by `drawPlanet(distance, size, color, orbitSpeed,
rotationSpeed, viewMatrix)` (lines 176-180): identity, then
`rotateY(time*orbitSpeed)`, `translate([distance,0,0])`,
`rotateY(time*rotationSpeed)`, `scale([size,size,size])`, each post-multiplied. -/
def modelMatrix (distance size orbitSpeed rotationSpeed time : ℝ) : Matrix (Fin 4) (Fin 4) ℝ :=
  rotYMatrix (time * orbitSpeed) * translateMatrix distance 0 0 *
    rotYMatrix (time * rotationSpeed) * scaleMatrix size

/-- The world position of the body's center: the image of the local origin
`(0,0,0,1)` under the model matrix, i.e. the matrix's fourth column. -/
def bodyCenter (distance size orbitSpeed rotationSpeed time : ℝ) : ℝ × ℝ × ℝ :=
  (modelMatrix distance size orbitSpeed rotationSpeed time 0 3,
   modelMatrix distance size orbitSpeed rotationSpeed time 1 3,
   modelMatrix distance size orbitSpeed rotationSpeed time 2 3)

theorem modelMatrix_zero_three (D s os rs t : ℝ) :
    modelMatrix D s os rs t 0 3 = D * Real.cos (t * os) := by
  unfold modelMatrix rotYMatrix translateMatrix scaleMatrix
  simp [Matrix.mul_apply, Fin.sum_univ_four]
  ring

theorem modelMatrix_one_three (D s os rs t : ℝ) :
    modelMatrix D s os rs t 1 3 = 0 := by
  unfold modelMatrix rotYMatrix translateMatrix scaleMatrix
  simp [Matrix.mul_apply, Fin.sum_univ_four]

theorem modelMatrix_two_three (D s os rs t : ℝ) :
    modelMatrix D s os rs t 2 3 = -(D * Real.sin (t * os)) := by
  unfold modelMatrix rotYMatrix translateMatrix scaleMatrix
  simp [Matrix.mul_apply, Fin.sum_univ_four]
  ring

/-- Model matrices of bodies whose orbit distances have different squares are
distinct, whatever the other parameters: they differ in their fourth column. -/
theorem modelMatrix_ne_of_dist (D1 s1 o1 r1 D2 s2 o2 r2 t : ℝ)
    (h : D1 ^ 2 ≠ D2 ^ 2) :
    modelMatrix D1 s1 o1 r1 t ≠ modelMatrix D2 s2 o2 r2 t := by
  intro heq
  have h0 : modelMatrix D1 s1 o1 r1 t 0 3 = modelMatrix D2 s2 o2 r2 t 0 3 := by rw [heq]
  have h2 : modelMatrix D1 s1 o1 r1 t 2 3 = modelMatrix D2 s2 o2 r2 t 2 3 := by rw [heq]
  rw [modelMatrix_zero_three, modelMatrix_zero_three] at h0
  rw [modelMatrix_two_three, modelMatrix_two_three] at h2
  apply h
  have e1 : (D1 * Real.cos (t * o1)) ^ 2 = (D2 * Real.cos (t * o2)) ^ 2 := by rw [h0]
  have e2 : (D1 * Real.sin (t * o1)) ^ 2 = (D2 * Real.sin (t * o2)) ^ 2 := by
    have := neg_injective h2
    rw [this]
  have hs1 := Real.sin_sq_add_cos_sq (t * o1)
  have hs2 := Real.sin_sq_add_cos_sq (t * o2)
  linear_combination e1 + e2 - D1 ^ 2 * hs1 + D2 ^ 2 * hs2

/-- **C1.** For a body drawn with `orbitDistance = D ≥ 0` and
`orbitAngularSpeed = S`, at any `time = t ≥ 0` the model transform built by
`drawPlanet` places the body's center (the image of the local origin, which
the self-rotation and scale steps do not move) at
`(D·cos(S·t), 0, −D·sin(S·t))`: distance exactly `D` from the world origin,
at azimuth `S·t` radians from the reference (+X) axis in the XZ orbital
plane. -/
theorem drawPlanet_orbit (D S size rs t : ℝ) (hD : 0 ≤ D) (ht : 0 ≤ t) :
    bodyCenter D size S rs t = (D * Real.cos (S * t), 0, -(D * Real.sin (S * t))) ∧
    Real.sqrt ((bodyCenter D size S rs t).1 ^ 2 + (bodyCenter D size S rs t).2.1 ^ 2 +
      (bodyCenter D size S rs t).2.2 ^ 2) = D := by
  have hc : bodyCenter D size S rs t =
      (D * Real.cos (S * t), 0, -(D * Real.sin (S * t))) := by
    unfold bodyCenter
    rw [modelMatrix_zero_three, modelMatrix_one_three, modelMatrix_two_three,
      mul_comm t S]
  refine ⟨hc, ?_⟩
  rw [hc]
  have hs := Real.sin_sq_add_cos_sq (S * t)
  have key : (D * Real.cos (S * t)) ^ 2 + (0 : ℝ) ^ 2 + (-(D * Real.sin (S * t))) ^ 2
      = D ^ 2 := by linear_combination D ^ 2 * hs
  rw [key, Real.sqrt_sq hD]

theorem drawPlanet_orbit_witness :
    (0 : ℝ) ≤ 5 ∧ (0 : ℝ) ≤ 2 ∧
    (bodyCenter 5 0.4 1.2 3 2 = (5 * Real.cos (1.2 * 2), 0, -(5 * Real.sin (1.2 * 2))) ∧
     Real.sqrt ((bodyCenter 5 0.4 1.2 3 2).1 ^ 2 + (bodyCenter 5 0.4 1.2 3 2).2.1 ^ 2 +
       (bodyCenter 5 0.4 1.2 3 2).2.2 ^ 2) = 5) :=
  ⟨by norm_num, by norm_num, drawPlanet_orbit 5 1.2 0.4 3 2 (by norm_num) (by norm_num)⟩

/-! ### The per-frame draw sequence (`render`, lines 217-222) -/

/-- The arguments `render` passes to one `drawPlanet` call. -/
structure Body where
  distance : ℝ
  size : ℝ
  color : ℝ × ℝ × ℝ × ℝ
  orbitSpeed : ℝ
  rotationSpeed : ℝ

/-- `drawPlanet(0, 2.5, [1.0, 1.0, 0.0, 1.0], 0, 0, view)` (line 218). -/
def sun : Body := ⟨0, 2.5, (1, 1, 0, 1), 0, 0⟩

/-- `drawPlanet(5, 0.4, [0.7, 0.7, 0.7, 1.0], 1.2, 3, view)` (line 219). -/
def mercury : Body := ⟨5, 0.4, (0.7, 0.7, 0.7, 1), 1.2, 3⟩

/-- `drawPlanet(7, 0.6, [0.9, 0.7, 0.3, 1.0], 1.0, 2, view)` (line 220). -/
def venus : Body := ⟨7, 0.6, (0.9, 0.7, 0.3, 1), 1.0, 2⟩

/-- `drawPlanet(9, 0.7, [0.2, 0.6, 1.0, 1.0], 0.8, 2, view)` (line 221). -/
def earth : Body := ⟨9, 0.7, (0.2, 0.6, 1, 1), 0.8, 2⟩

/-- `drawPlanet(11, 0.5, [1.0, 0.3, 0.3, 1.0], 0.7, 2, view)` (line 222). -/
def mars : Body := ⟨11, 0.5, (1, 0.3, 0.3, 1), 0.7, 2⟩

/-- The five `drawPlanet` invocations one `render` frame issues, in source
order. -/
def renderBodies : List Body := [sun, mercury, venus, earth, mars]

/-- The model transform `drawPlanet` builds for a body at a given time. -/
def drawModel (time : ℝ) (b : Body) : Matrix (Fin 4) (Fin 4) ℝ :=
  modelMatrix b.distance b.size b.orbitSpeed b.rotationSpeed time

theorem drawModel_ne_of_dist (t : ℝ) (b1 b2 : Body)
    (h : b1.distance ^ 2 ≠ b2.distance ^ 2) : drawModel t b1 ≠ drawModel t b2 :=
  modelMatrix_ne_of_dist b1.distance b1.size b1.orbitSpeed b1.rotationSpeed
    b2.distance b2.size b2.orbitSpeed b2.rotationSpeed t h

/-- **C4.** Every render frame issues exactly five draw invocations, in the
order Sun, Mercury, Venus, Earth, Mars (Sun first, then outward by orbit
distance 0, 5, 7, 9, 11); at every time their five model transforms are
pairwise distinct; and the Sun's model transform is the identity uniformly
scaled by 2.5 (its orbit distance and both speeds being 0). -/
theorem render_five_draws (t : ℝ) :
    renderBodies.length = 5 ∧
    renderBodies = [sun, mercury, venus, earth, mars] ∧
    renderBodies.map Body.distance = [0, 5, 7, 9, 11] ∧
    List.Pairwise (fun b1 b2 => drawModel t b1 ≠ drawModel t b2) renderBodies ∧
    drawModel t sun = scaleMatrix 2.5 := by
  refine ⟨rfl, rfl, ?_, ?_, ?_⟩
  · simp [renderBodies, sun, mercury, venus, earth, mars]
  · refine List.Pairwise.cons ?_ (List.Pairwise.cons ?_ (List.Pairwise.cons ?_
      (List.Pairwise.cons ?_ (List.pairwise_singleton _ _)))) <;>
    · intro b hb
      simp only [List.mem_cons, List.mem_singleton, List.not_mem_nil, or_false] at hb
      rcases hb with rfl | rfl | rfl | rfl | rfl <;>
        · apply drawModel_ne_of_dist
          norm_num [sun, mercury, venus, earth, mars]
  · show modelMatrix 0 2.5 0 0 t = scaleMatrix 2.5
    unfold modelMatrix
    rw [mul_zero]
    have h1 : rotYMatrix 0 = 1 := by
      unfold rotYMatrix
      ext i j
      fin_cases i <;> fin_cases j <;>
        simp [Matrix.one_apply, Matrix.vecHead, Matrix.vecTail,
          Real.cos_zero, Real.sin_zero]
    have h2 : translateMatrix 0 0 0 = 1 := by
      unfold translateMatrix
      ext i j
      fin_cases i <;> fin_cases j <;>
        simp [Matrix.one_apply, Matrix.vecHead, Matrix.vecTail]
    rw [h1, h2, Matrix.one_mul, Matrix.one_mul, Matrix.one_mul]

/-! ### Fragment shader (`fragmentShaderSource`, lines 30-56)

GLSL `mediump float` arithmetic is modelled over ℝ; `vec3` as `ℝ × ℝ × ℝ`. -/

/-- GLSL `dot` on vec3. -/
def vdot (u v : ℝ × ℝ × ℝ) : ℝ := u.1 * v.1 + u.2.1 * v.2.1 + u.2.2 * v.2.2

/-- GLSL `normalize` on vec3 (division by the Euclidean length). -/
def vnormalize (v : ℝ × ℝ × ℝ) : ℝ × ℝ × ℝ :=
  (v.1 / Real.sqrt (vdot v v), v.2.1 / Real.sqrt (vdot v v), v.2.2 / Real.sqrt (vdot v v))

def vsub (u v : ℝ × ℝ × ℝ) : ℝ × ℝ × ℝ := (u.1 - v.1, u.2.1 - v.2.1, u.2.2 - v.2.2)

def vneg (v : ℝ × ℝ × ℝ) : ℝ × ℝ × ℝ := (-v.1, -v.2.1, -v.2.2)

/-- GLSL `reflect(I, N) = I - 2 * dot(N, I) * N`. -/
def vreflect (I N : ℝ × ℝ × ℝ) : ℝ × ℝ × ℝ :=
  (I.1 - 2 * vdot N I * N.1, I.2.1 - 2 * vdot N I * N.2.1, I.2.2 - 2 * vdot N I * N.2.2)

/-- The fragment `main` (lines 40-55): Phong shading from interpolated normal
`vNormal`, world position `vFragPos`, uniforms `uLightPos`, `uViewPos`,
`uColor`; returns `gl_FragColor`. -/
def fragmentShader (uLightPos uViewPos vFragPos vNormal : ℝ × ℝ × ℝ)
    (uColor : ℝ × ℝ × ℝ × ℝ) : ℝ × ℝ × ℝ × ℝ :=
  let norm := vnormalize vNormal
  let lightDir := vnormalize (vsub uLightPos vFragPos)
  let diff := max (vdot norm lightDir) 0
  let viewDir := vnormalize (vsub uViewPos vFragPos)
  let reflectDir := vreflect (vneg lightDir) norm
  let spec := max (vdot viewDir reflectDir) 0 ^ (32 : ℕ)
  let ambient := (0.1 * uColor.1, 0.1 * uColor.2.1, 0.1 * uColor.2.2.1)
  let diffuse := (diff * uColor.1, diff * uColor.2.1, diff * uColor.2.2.1)
  let specular := (spec * 1, spec * 1, spec * 1)
  (ambient.1 + diffuse.1 + specular.1,
   ambient.2.1 + diffuse.2.1 + specular.2.1,
   ambient.2.2 + diffuse.2.2 + specular.2.2,
   1)

/-- The §4.2 output formula, written from the spec's words:
`rgb = 0.1·color.rgb + max(dot(N,L),0)·color.rgb + max(dot(V,R),0)^32·(1,1,1)`
with `N` the normalized normal, `L` the normalized light direction, `V` the
normalized view direction, `R = reflect(−L, N)`; alpha 1. -/
def specPhongOutput (lightPos eyePos fragPos normal : ℝ × ℝ × ℝ)
    (color : ℝ × ℝ × ℝ × ℝ) : ℝ × ℝ × ℝ × ℝ :=
  let N := vnormalize normal
  let L := vnormalize (vsub lightPos fragPos)
  let V := vnormalize (vsub eyePos fragPos)
  let R := vreflect (vneg L) N
  (0.1 * color.1 + max (vdot N L) 0 * color.1 + max (vdot V R) 0 ^ (32 : ℕ) * 1,
   0.1 * color.2.1 + max (vdot N L) 0 * color.2.1 + max (vdot V R) 0 ^ (32 : ℕ) * 1,
   0.1 * color.2.2.1 + max (vdot N L) 0 * color.2.2.1 + max (vdot V R) 0 ^ (32 : ℕ) * 1,
   1)

/-- **C7.** For every input color, normal, light position, eye position and
fragment position, the fragment stage outputs exactly the §4.2 Phong
combination `0.1·c.rgb + max(dot(N,L),0)·c.rgb + max(dot(V,R),0)^32·(1,1,1)`,
and its alpha component is 1 regardless of the input color's alpha (the
fourth component of `uColor` is never read). -/
theorem fragmentShader_spec (uLightPos uViewPos vFragPos vNormal : ℝ × ℝ × ℝ)
    (uColor : ℝ × ℝ × ℝ × ℝ) :
    fragmentShader uLightPos uViewPos vFragPos vNormal uColor =
      specPhongOutput uLightPos uViewPos vFragPos vNormal uColor ∧
    (fragmentShader uLightPos uViewPos vFragPos vNormal uColor).2.2.2 = 1 ∧
    ∀ alpha : ℝ,
      fragmentShader uLightPos uViewPos vFragPos vNormal
        (uColor.1, uColor.2.1, uColor.2.2.1, alpha) =
      fragmentShader uLightPos uViewPos vFragPos vNormal uColor := by
  refine ⟨rfl, rfl, fun alpha => rfl⟩

/-! ### Startup failure behavior (lines 4-8 and 59-76)

`canvas.getContext("webgl")` may return null. The source runs
`if (!gl) alert("WebGL not supported.");` and then continues straight into
`compileShader(gl.VERTEX_SHADER, ...)`; under JavaScript semantics the first
member access on the null context throws an uncaught TypeError, terminating
the script. The top-level script is modelled as a trace of observable
events together with an optional uncaught-exception message. -/

inductive GLEvent where
  | alertShown (msg : String)
  | shaderCompiled
  | programLinked
  | bufferUploaded
  | drawIssued
  deriving DecidableEq

/-- The top-level script (lines 4-226) as a function of whether
`canvas.getContext("webgl")` produced a context: the emitted event trace and,
when the script dies, the uncaught exception. With a context the script
compiles both shaders, links, uploads the three buffers and reaches the first
`render()` frame's five draws; with a null context it shows the blocking
`alert` and then throws on the first `gl` member access
(`gl.VERTEX_SHADER` inside the `compileShader(gl.VERTEX_SHADER, ...)` call,
line 68), before any shader, buffer or draw work. -/
def runScript (gl : Option Unit) : List GLEvent × Option String :=
  let pre : List GLEvent :=
    if gl.isNone then [GLEvent.alertShown "WebGL not supported."] else []
  match gl with
  | none => (pre, some "TypeError: cannot read properties of null")
  | some _ =>
      (pre ++ [GLEvent.shaderCompiled, GLEvent.shaderCompiled, GLEvent.programLinked,
        GLEvent.bufferUploaded, GLEvent.bufferUploaded, GLEvent.bufferUploaded,
        GLEvent.drawIssued, GLEvent.drawIssued, GLEvent.drawIssued,
        GLEvent.drawIssued, GLEvent.drawIssued], none)

/-- **C8.** If graphics-context creation fails at startup, the failure is
fatal: the user gets the blocking `alert` notification, the script dies on an
uncaught exception, and no shader compilation, buffer upload or draw call
ever occurs. -/
theorem context_failure_fatal :
    (runScript none).1 = [GLEvent.alertShown "WebGL not supported."] ∧
    (runScript none).2.isSome = true ∧
    ∀ ev ∈ (runScript none).1,
      ev ≠ GLEvent.shaderCompiled ∧ ev ≠ GLEvent.bufferUploaded ∧
      ev ≠ GLEvent.drawIssued := by
  refine ⟨rfl, rfl, ?_⟩
  intro ev hev
  simp only [runScript, Option.isNone_none, if_true, List.mem_singleton] at hev
  subst hev
  refine ⟨?_, ?_, ?_⟩ <;> intro h <;> exact nomatch h

end

end SolarSystem
